import Mathlib

/-!
# Verification of `genaidataprofiling.py`

Shallow embedding of the rule-extraction-and-validation pipeline in
`src/code/src/genaidataprofiling.py`:

* `clean_json_response` (the spec's ResponseSanitizer),
* `extract_profile_rules` (the spec's RuleExtractor), modelled on the HTTP
  response it receives (status code plus body text),
* `validate_data` (the spec's RuleValidationEngine), modelled on the dataframe
  obtained from `pd.read_csv` plus the rule-set string.

Modelling conventions:

* Python values obtained from `json.loads` are modelled by the inductive
  `Json`.  Numerals are restricted to integers (`Int`): the Python code
  compares numeric columns against `float(value)`, and on the integer data of
  every claim the float and integer semantics agree; floating point itself is
  outside the model.
* A dataframe cell is `Cell`: numeric, string, or null (pandas `NaN`).  A
  column is "numeric dtype" exactly when every cell is numeric or null, which
  is how `pd.read_csv` infers dtypes.
* Exceptions that the Python code can raise and does not catch are modelled
  by `Except PyError`; an exception swallowed by the code (for example the
  `json.JSONDecodeError` caught in `validate_data`) never surfaces as a
  `PyError`.
* `validate_data` returns `ValidateResult.ruleParseError` for the early
  `return` taken after an invalid rule-set string (the error is printed and
  no output file is produced), and `ValidateResult.output d` when the
  annotated dataframe `d` is written to the output file.
-/

namespace GenAIDataProfiling

/-- Python values produced by `json.loads`, restricted to integer numerals. -/
inductive Json where
  | null
  | bool (b : Bool)
  | num (n : Int)
  | str (s : String)
  | arr (elems : List Json)
  | obj (fields : List (String × Json))

/-- A single dataframe cell: numeric, string, or null (`NaN`). -/
inductive Cell where
  | null
  | num (n : Int)
  | str (s : String)
deriving DecidableEq, Repr

/-- A dataframe: ordered column names and rows of cells (row-major). -/
structure Dataset where
  cols : List String
  rows : List (List Cell)
deriving DecidableEq, Repr

/-- Uncaught Python exceptions relevant to this program. -/
inductive PyError where
  | typeError
  | valueError
  | attributeError
  | keyError
  | indexError
deriving DecidableEq, Repr

/-- Result of `validate_data`: either the early return after a rule-set parse
failure (error printed, no output file), or the annotated dataframe written to
the output file. -/
inductive ValidateResult where
  | ruleParseError
  | output (d : Dataset)
deriving DecidableEq, Repr

/-- Python truthiness (`bool(x)`) of a JSON-shaped value. -/
def pyTruthy : Json → Bool
  | .null => false
  | .bool b => b
  | .num n => n != 0
  | .str s => s != ""
  | .arr xs => !xs.isEmpty
  | .obj kvs => !kvs.isEmpty

/-- Does `j` equal the Python string `s` (Python `j == s`)? -/
def jsonIsStr : Json → String → Bool
  | .str t, s => t == s
  | _, _ => false

/-- A single-quote character, used by `pyRepr` for Python string reprs. -/
def squote : String := String.mk [Char.ofNat 39]

mutual
/-- Python `repr` of a JSON-shaped value (as used by `str` on containers). -/
def pyRepr : Json → String
  | .null => "None"
  | .bool b => if b then "True" else "False"
  | .num n => toString n
  | .str s => squote ++ s ++ squote
  | .arr xs => "[" ++ pyReprElems xs ++ "]"
  | .obj kvs => "\x7b" ++ pyReprFields kvs ++ "\x7d"

/-- Comma-separated reprs of list elements. -/
def pyReprElems : List Json → String
  | [] => ""
  | [x] => pyRepr x
  | x :: y :: xs => pyRepr x ++ ", " ++ pyReprElems (y :: xs)

/-- Comma-separated reprs of dict entries. -/
def pyReprFields : List (String × Json) → String
  | [] => ""
  | [(k, v)] => squote ++ k ++ squote ++ ": " ++ pyRepr v
  | (k, v) :: kv :: kvs =>
      squote ++ k ++ squote ++ ": " ++ pyRepr v ++ ", " ++ pyReprFields (kv :: kvs)
end

/-- Python `str(x)` of a JSON-shaped value (f-string interpolation). -/
def pyStr : Json → String
  | .str s => s
  | j => pyRepr j

/-- Digit run at the front of a character list. -/
def takeDigits : List Char → List Char × List Char
  | [] => ([], [])
  | c :: cs =>
    if c.isDigit then
      let p := takeDigits cs
      (c :: p.1, p.2)
    else ([], c :: cs)

/-- Numeric value of a digit run. -/
def digitsVal (ds : List Char) : Nat :=
  ds.foldl (fun acc c => 10 * acc + (c.toNat - 48)) 0

/-- Python `float(s)` on a string, restricted to integer numerals: strips
whitespace, accepts an optional sign followed by digits; anything else raises
`ValueError`. -/
def parseIntStr (s : String) : Option Int :=
  match s.trim.data with
  | '-' :: cs =>
    match takeDigits cs with
    | (d :: ds, []) => some (-(digitsVal (d :: ds) : Int))
    | _ => none
  | '+' :: cs =>
    match takeDigits cs with
    | (d :: ds, []) => some (digitsVal (d :: ds) : Int)
    | _ => none
  | cs =>
    match takeDigits cs with
    | (d :: ds, []) => some (digitsVal (d :: ds) : Int)
    | _ => none

/-- Python `float(value)` on a JSON-shaped value (integer-restricted):
numbers and booleans convert, numeric strings parse, `None` and containers
raise `TypeError`, non-numeric strings raise `ValueError`. -/
def pyFloat : Json → Except PyError Int
  | .num n => .ok n
  | .bool b => .ok (if b then 1 else 0)
  | .str s =>
    match parseIntStr s with
    | some n => .ok n
    | none => .error .valueError
  | .null => .error .typeError
  | .arr _ => .error .typeError
  | .obj _ => .error .typeError

/-- Is the cell null (`pd.isnull`)? -/
def cellIsNull : Cell → Bool
  | .null => true
  | _ => false

/-- Does the cell count towards a numeric dtype? -/
def cellNumeric : Cell → Bool
  | .str _ => false
  | _ => true

/-- `pd.api.types.is_numeric_dtype` for a column read by `pd.read_csv`:
true exactly when the column has at least one row and every cell is numeric
or null (`read_csv` gives a zero-row column object dtype, which is not
numeric). -/
def numericCol (cells : List Cell) : Bool := !cells.isEmpty && cells.all cellNumeric

/-- Elementwise `df[column] <= v`: pandas comparisons with `NaN` are false,
and the guard `is_numeric_dtype` rules out string cells. -/
def cellLE (c : Cell) (v : Int) : Bool :=
  match c with
  | .num n => n ≤ v
  | _ => false

/-- Does a cell equal one candidate JSON value, as `Series.isin` compares:
numbers by value (with Python `1 == True`), strings by equality, and `NaN`
matching a `None`/null entry of the candidate list. -/
def cellMatches (c : Cell) (j : Json) : Bool :=
  match c, j with
  | .null, .null => true
  | .num a, .num b => a == b
  | .num a, .bool b => a == (if b then (1 : Int) else 0)
  | .str a, .str b => a == b
  | _, _ => false

/-- `Series.isin(vals)` for one cell. -/
def cellIsin (c : Cell) (vals : List Json) : Bool := vals.any (cellMatches c)

/-! ## A model of `json.loads`

A fuel-indexed recursive-descent JSON parser.  Model restrictions (documented,
none is exercised by the claims): numerals must be integers (no fraction or
exponent part), and string escapes are limited to `\" \\ \/ \n \t \r`
(no `\uXXXX`).  Within those restrictions the grammar is the JSON grammar
accepted by Python's `json.loads`, including its whitespace handling and its
rejection of leading zeros and trailing input. -/

/-- Skip JSON whitespace. -/
def skipWs : List Char → List Char
  | [] => []
  | c :: cs => if c = ' ' ∨ c = '\n' ∨ c = '\t' ∨ c = '\r' then skipWs cs else c :: cs

/-- Parse the remainder of a JSON string literal (after the opening quote),
returning the decoded characters and the input after the closing quote. -/
def parseJStr : List Char → Option (List Char × List Char)
  | [] => none
  | c :: cs =>
    if c = '"' then some ([], cs)
    else if c = '\\' then
      match cs with
      | [] => none
      | e :: cs' =>
        let dec : Option Char :=
          if e = '"' then some '"'
          else if e = '\\' then some '\\'
          else if e = '/' then some '/'
          else if e = 'n' then some '\n'
          else if e = 't' then some '\t'
          else if e = 'r' then some '\r'
          else none
        match dec with
        | some d => (parseJStr cs').map (fun p => (d :: p.1, p.2))
        | none => none
    else (parseJStr cs).map (fun p => (c :: p.1, p.2))

/-- Insert a key/value pair into an object accumulator with Python dict
semantics: a repeated key keeps its original position and takes the latest
value (`json.loads` keeps the last value of a duplicate key). -/
def objInsert (acc : List (String × Json)) (k : String) (v : Json) :
    List (String × Json) :=
  if (List.lookup k acc).isSome then
    acc.map (fun kv => if kv.1 = k then (k, v) else kv)
  else acc ++ [(k, v)]

/-- Parse an unsigned JSON integer numeral (JSON forbids leading zeros). -/
def parseNumCore (cs : List Char) : Option (Nat × List Char) :=
  match takeDigits cs with
  | ([], _) => none
  | ([d], rest) => some (digitsVal [d], rest)
  | (d :: ds, rest) => if d = '0' then none else some (digitsVal (d :: ds), rest)

/-- Parse a signed JSON integer numeral. -/
def parseNum (cs : List Char) : Option (Json × List Char) :=
  match cs with
  | [] => none
  | c :: rest =>
    if c = '-' then
      (parseNumCore rest).map (fun p => (.num (-(p.1 : Int)), p.2))
    else
      (parseNumCore (c :: rest)).map (fun p => (.num (p.1 : Int), p.2))

mutual
/-- Parse one JSON value; every recursive call consumes one unit of fuel. -/
def parseJson : Nat → List Char → Option (Json × List Char)
  | 0, _ => none
  | fuel + 1, cs =>
    match skipWs cs with
    | [] => none
    | c :: rest =>
      if c = '"' then (parseJStr rest).map (fun p => (.str (String.mk p.1), p.2))
      else if c = '[' then parseArrStart fuel rest
      else if c = Char.ofNat 123 then parseObjStart fuel rest
      else if c = 'n' then
        match rest with
        | 'u' :: 'l' :: 'l' :: r => some (.null, r)
        | _ => none
      else if c = 't' then
        match rest with
        | 'r' :: 'u' :: 'e' :: r => some (.bool true, r)
        | _ => none
      else if c = 'f' then
        match rest with
        | 'a' :: 'l' :: 's' :: 'e' :: r => some (.bool false, r)
        | _ => none
      else parseNum (c :: rest)

/-- Parse an array body right after `[`. -/
def parseArrStart : Nat → List Char → Option (Json × List Char)
  | 0, _ => none
  | fuel + 1, cs =>
    match skipWs cs with
    | [] => none
    | c :: rest =>
      if c = ']' then some (.arr [], rest)
      else
        match parseJson fuel (c :: rest) with
        | some (j, r) => parseArrTail fuel [j] r
        | none => none

/-- Parse `, value`* `]` after at least one array element. -/
def parseArrTail : Nat → List Json → List Char → Option (Json × List Char)
  | 0, _, _ => none
  | fuel + 1, acc, cs =>
    match skipWs cs with
    | [] => none
    | c :: rest =>
      if c = ']' then some (.arr acc, rest)
      else if c = ',' then
        match parseJson fuel rest with
        | some (j, r) => parseArrTail fuel (acc ++ [j]) r
        | none => none
      else none

/-- Parse an object body right after the opening brace. -/
def parseObjStart : Nat → List Char → Option (Json × List Char)
  | 0, _ => none
  | fuel + 1, cs =>
    match skipWs cs with
    | [] => none
    | c :: rest =>
      if c = Char.ofNat 125 then some (.obj [], rest)
      else if c = '"' then
        match parseJStr rest with
        | some (k, r) => parseObjVal fuel [] (String.mk k) r
        | none => none
      else none

/-- Parse `: value` for the pending key `k`, then continue the object. -/
def parseObjVal : Nat → List (String × Json) → String → List Char → Option (Json × List Char)
  | 0, _, _, _ => none
  | fuel + 1, acc, k, cs =>
    match skipWs cs with
    | [] => none
    | c :: rest =>
      if c = ':' then
        match parseJson fuel rest with
        | some (v, r) => parseObjTail fuel (objInsert acc k v) r
        | none => none
      else none

/-- Parse `, "key": value`* and the closing brace after one object entry. -/
def parseObjTail : Nat → List (String × Json) → List Char → Option (Json × List Char)
  | 0, _, _ => none
  | fuel + 1, acc, cs =>
    match skipWs cs with
    | [] => none
    | c :: rest =>
      if c = Char.ofNat 125 then some (.obj acc, rest)
      else if c = ',' then
        match skipWs rest with
        | [] => none
        | c2 :: r2 =>
          if c2 = '"' then
            match parseJStr r2 with
            | some (k, r) => parseObjVal fuel acc (String.mk k) r
            | none => none
          else none
      else none
end

/-- Python `json.loads` on a string: parse one JSON value and require that
only whitespace follows; `none` models a raised `json.JSONDecodeError`. -/
def json_loads (s : String) : Option Json :=
  match parseJson (4 * (s.length + 1)) s.data with
  | some (j, rest) => if skipWs rest = [] then some j else none
  | none => none

/-! ## `clean_json_response` (ResponseSanitizer)

The Python function tries `re.search(r'<fence>json\n(.*?)\n<fence>', t, re.DOTALL)`
(where `<fence>` is three backticks) and then
`re.search(r'\\boxed\x7b(.*?)\x7d', t, re.DOTALL)`, returning group 1 of the
first match, else the input unchanged.

Because neither literal pattern head (the fence opener, `\boxed` plus brace)
overlaps itself, and because a closing delimiter occurring after a later
opener also occurs after an earlier one, `re.search` with a lazy group is
equivalent to: find the *first* occurrence of the opener, then the *first*
occurrence of the closer after it; the group is what lies between.  That is
what `splitFirst` computes. -/

/-- Split a character list at the first occurrence of `pat`, returning the
part before the occurrence and the part after it.  `none` when `pat` does not
occur (for nonempty `pat`). -/
def splitFirst (pat : List Char) : List Char → Option (List Char × List Char)
  | [] => none
  | c :: cs =>
    if pat.isPrefixOf (c :: cs) then some ([], (c :: cs).drop pat.length)
    else
      match splitFirst pat cs with
      | some (a, b) => some (c :: a, b)
      | none => none

/-- The fence opener `<three backticks>json<newline>`. -/
def fenceOpen : List Char := "```json\n".data

/-- The fence closer `<newline><three backticks>`. -/
def fenceClose : List Char := "\n```".data

/-- The boxed opener `\boxed` followed by an opening brace. -/
def boxedOpen : List Char := "\\boxed\x7b".data

/-- The boxed closer: a closing brace. -/
def boxedClose : List Char := "\x7d".data

/-- Group 1 of the fenced-JSON regex, when it matches. -/
def fenceMatch (cs : List Char) : Option (List Char) :=
  match splitFirst fenceOpen cs with
  | some (_, afterOpen) => (splitFirst fenceClose afterOpen).map (·.1)
  | none => none

/-- Group 1 of the boxed regex, when it matches. -/
def boxedMatch (cs : List Char) : Option (List Char) :=
  match splitFirst boxedOpen cs with
  | some (_, afterOpen) => (splitFirst boxedClose afterOpen).map (·.1)
  | none => none

/-- `clean_json_response`: extract the JSON payload from a model response by
stripping a fenced-JSON block, else a boxed wrapper, else return the input. -/
def clean_json_response (response_text : String) : String :=
  match fenceMatch response_text.data with
  | some interior => String.mk interior
  | none =>
    match boxedMatch response_text.data with
    | some interior => String.mk interior
    | none => response_text

/-! ## `extract_profile_rules` (RuleExtractor)

Modelled on the HTTP response it receives: the status code and the body text.
The request construction (prompt, headers, model name) has no effect on the
returned value and is not modelled; `response.json()` is `json_loads` on the
body, and its `json.JSONDecodeError` is the only exception the Python
`try`/`except` catches. -/

/-- Python `j[k]` for a string key `k`: dict lookup (`KeyError` when absent);
subscripting a list or a string with a string key raises `TypeError`. -/
def pySubscript (j : Json) (k : String) : Except PyError Json :=
  match j with
  | .obj kvs =>
    match List.lookup k kvs with
    | some v => .ok v
    | none => .error .keyError
  | _ => .error .typeError

/-- Python `j[0]`: head of a list (`IndexError` when empty), first character
of a string, integer-key lookup on a dict (`KeyError`: all keys are strings),
`TypeError` otherwise. -/
def pyIndexZero : Json → Except PyError Json
  | .arr [] => .error .indexError
  | .arr (x :: _) => .ok x
  | .str s =>
    match s.data with
    | [] => .error .indexError
    | c :: _ => .ok (.str (String.mk [c]))
  | .obj _ => .error .keyError
  | _ => .error .typeError

/-- Python `k in j` for a string `k`: key test on a dict, membership on a
list, substring test on a string, `TypeError` otherwise. -/
def pyContainsStr (j : Json) (k : String) : Except PyError Bool :=
  match j with
  | .obj kvs => .ok (List.lookup k kvs).isSome
  | .arr xs => .ok (xs.any (fun x => jsonIsStr x k))
  | .str s => .ok (splitFirst k.data s.data).isSome
  | _ => .error .typeError

/-- `extract_profile_rules`, modelled on the received HTTP response
(`status`, `body`).  Non-200 statuses and caught JSON decode errors return
`"[]"`; a missing or falsy `choices` field, a missing `message`/`content`
field, or sanitized content not starting with `[` also return `"[]"`;
shape errors outside the `except json.JSONDecodeError` clause surface as
uncaught exceptions. -/
def extract_profile_rules (status : Nat) (body : String) : Except PyError String :=
  if status ≠ 200 then .ok "[]"
  else
    match json_loads body with
    | none => .ok "[]"
    | some result =>
      match result with
      | .obj kvs =>
        let choices := (List.lookup "choices" kvs).getD (.arr [])
        if !pyTruthy choices then .ok "[]"
        else
          match pyIndexZero choices with
          | .error e => .error e
          | .ok c0 =>
            match pyContainsStr c0 "message" with
            | .error e => .error e
            | .ok hasMsg =>
              if !hasMsg then .ok "[]"
              else
                match pySubscript c0 "message" with
                | .error e => .error e
                | .ok msg =>
                  match pyContainsStr msg "content" with
                  | .error e => .error e
                  | .ok hasContent =>
                    if !hasContent then .ok "[]"
                    else
                      match pySubscript msg "content" with
                      | .error e => .error e
                      | .ok contentJ =>
                        match contentJ with
                        | .str rules_text =>
                          let cleaned := clean_json_response rules_text
                          if cleaned.trim.startsWith "[" then .ok cleaned
                          else .ok "[]"
                        | _ => .error .typeError
      | _ => .error .attributeError

/-! ## `validate_data` (RuleValidationEngine)

Modelled on the dataframe read by `pd.read_csv` (a `Dataset`) and the
rule-set string.  The Excel report writing and the cell highlighting are file
I/O on the already-computed annotated dataframe and are represented by the
`ValidateResult.output` constructor carrying that dataframe. -/

/-- The cells of column `c` of the dataframe, in row order (`df[c]`). -/
def Dataset.getCol (d : Dataset) (c : String) : Option (List Cell) :=
  if c ∈ d.cols then
    some (d.rows.map (fun r => r.getD (d.cols.indexOf c) Cell.null))
  else none

/-- Read column `c` during validation: after `df["Error_Details"] = ""` the
diagnostic column exists and holds the accumulated strings `diag`; any other
column still holds its original cells (the loop only ever writes
`"Error_Details"`). -/
def readCol (d : Dataset) (diag : List String) (c : String) : List Cell :=
  if c = "Error_Details" then diag.map Cell.str
  else (d.getCol c).getD []

/-- `df.loc[mask, "Error_Details"] += msg`: append `msg` to the diagnostics
of the rows selected by `mask`. -/
def appendWhere (diag : List String) (mask : List Bool) (msg : String) : List String :=
  List.zipWith (fun s b => if b then s ++ msg else s) diag mask

/-- The dataset-wide message for a rule naming an absent column. -/
def missingMsg (column : Json) : String :=
  pyStr column ++ " is missing in the dataset. "

/-- One iteration of the rule loop, acting on the accumulated diagnostics.
Mirrors the Python body: `rule.get` on a non-dict raises `AttributeError`;
rules with a falsy column or constraint are skipped; a rule whose column is
present (note: `"Error_Details"` is present after initialization) dispatches
on the constraint token, and otherwise appends the dataset-wide missing
message to every row.  The membership test `column in df.columns` starts by
hashing the key (pandas `Index.__contains__`), so an unhashable column value
(a list or a dict) raises an uncaught `TypeError`; hashable non-string values
are simply absent from the string-named columns. -/
def applyRule (d : Dataset) (diag : List String) (rule : Json) :
    Except PyError (List String) :=
  match rule with
  | .obj kvs =>
    let column := (List.lookup "column" kvs).getD .null
    let constraint := (List.lookup "constraint" kvs).getD .null
    let value := (List.lookup "value" kvs).getD .null
    if !pyTruthy column || !pyTruthy constraint then .ok diag
    else
      match column with
      | .str c =>
        if c = "Error_Details" ∨ c ∈ d.cols then
          let cells := readCol d diag c
          if jsonIsStr constraint "non-null" then
            .ok (appendWhere diag (cells.map cellIsNull)
              (c ++ " is missing. Provide a valid value. "))
          else if jsonIsStr constraint "greater than" && numericCol cells then
            match pyFloat value with
            | .error e => .error e
            | .ok v =>
              .ok (appendWhere diag (cells.map (fun x => cellLE x v))
                (c ++ " must be greater than " ++ pyStr value ++ ". "))
          else if jsonIsStr constraint "allowed values" then
            match value with
            | .arr vs =>
              .ok (appendWhere diag (cells.map (fun x => !cellIsin x vs))
                (c ++ " must be one of " ++ pyStr (.arr vs) ++ ". "))
            | _ => .ok diag
          else .ok diag
        else .ok (diag.map (fun s => s ++ missingMsg column))
      | .arr _ => .error .typeError
      | .obj _ => .error .typeError
      | _ => .ok (diag.map (fun s => s ++ missingMsg column))
  | _ => .error .attributeError

/-- The rule loop, in order. -/
def applyRules (d : Dataset) : List Json → List String → Except PyError (List String)
  | [], diag => .ok diag
  | r :: rs, diag =>
    match applyRule d diag r with
    | .error e => .error e
    | .ok diag' => applyRules d rs diag'

/-- Python `for rule in rules` on the parsed rule-set value: a list yields
its elements, a dict its keys, a string its characters; numbers, booleans and
`None` are not iterable (`TypeError`). -/
def pyIterate : Json → Except PyError (List Json)
  | .arr xs => .ok xs
  | .obj kvs => .ok (kvs.map (fun kv => Json.str kv.fst))
  | .str s => .ok (s.data.map (fun ch => Json.str (String.mk [ch])))
  | _ => .error .typeError

/-- Build the written dataframe: the diagnostics become the
`"Error_Details"` column — overwriting it in place when the input already had
a column of that name, appended as the last column otherwise. -/
def finalize (d : Dataset) (diag : List String) : Dataset :=
  if "Error_Details" ∈ d.cols then
    { cols := d.cols
      rows := List.zipWith
        (fun r s => r.set (d.cols.indexOf "Error_Details") (Cell.str s)) d.rows diag }
  else
    { cols := d.cols ++ ["Error_Details"]
      rows := List.zipWith (fun r s => r ++ [Cell.str s]) d.rows diag }

/-- `validate_data` on the loaded dataframe and the rule-set string: parse
the rules (`json.JSONDecodeError` is caught: print and return, writing no
output file), initialize the diagnostic column to `""`, run the rule loop,
and write the annotated dataframe. -/
def validate_data (d : Dataset) (rules : String) : Except PyError ValidateResult :=
  match json_loads rules with
  | none => .ok .ruleParseError
  | some j =>
    match pyIterate j with
    | .error e => .error e
    | .ok ruleList =>
      match applyRules d ruleList (d.rows.map (fun _ => "")) with
      | .error e => .error e
      | .ok diag => .ok (.output (finalize d diag))

/-- Stated from the spec's words (for the frame-effect claims): the dataset
with all original columns and values unchanged and an all-empty
`Error_Details` column appended as the last column. -/
def specAppendEmptyDiag (d : Dataset) : Dataset :=
  { cols := d.cols ++ ["Error_Details"]
    rows := d.rows.map (fun r => r ++ [Cell.str ""]) }

/-! ## Supporting lemmas -/

/-- `pat` occurs as a contiguous substring of `cs`. -/
def occursSub (pat cs : List Char) : Prop := ∃ a b, cs = a ++ pat ++ b

lemma splitFirst_eq_some (pat : List Char) :
    ∀ {cs a b : List Char}, splitFirst pat cs = some (a, b) → cs = a ++ pat ++ b := by
  intro cs
  induction cs with
  | nil => intro a b h; simp [splitFirst] at h
  | cons c cs ih =>
    intro a b h
    rw [splitFirst] at h
    split at h
    case isTrue hp =>
      obtain ⟨t, ht⟩ := List.isPrefixOf_iff_prefix.mp hp
      simp only [Option.some.injEq, Prod.mk.injEq] at h
      obtain ⟨rfl, rfl⟩ := h
      simp only [List.nil_append]
      conv_lhs => rw [← ht]
      rw [← ht, List.drop_left]
    case isFalse hp =>
      cases hsf : splitFirst pat cs with
      | none => rw [hsf] at h; simp at h
      | some p =>
        rw [hsf] at h
        obtain ⟨a', b'⟩ := p
        simp only [Option.some.injEq, Prod.mk.injEq] at h
        obtain ⟨rfl, rfl⟩ := h
        simp [ih hsf]

lemma splitFirst_self_append (pat b : List Char) (hne : pat ≠ []) :
    splitFirst pat (pat ++ b) = some ([], b) := by
  cases pat with
  | nil => exact absurd rfl hne
  | cons p ps =>
    show splitFirst (p :: ps) (p :: (ps ++ b)) = some ([], b)
    rw [splitFirst]
    have hpre : (p :: ps).isPrefixOf (p :: (ps ++ b)) :=
      List.isPrefixOf_iff_prefix.mpr ⟨b, rfl⟩
    rw [if_pos hpre]
    have heq : (p :: (ps ++ b)) = (p :: ps) ++ b := rfl
    rw [heq, List.drop_left]

lemma splitFirst_append_of_not_occurs (pat : List Char) (hne : pat ≠ []) :
    ∀ (a b : List Char), ¬ occursSub pat (a ++ pat.dropLast) →
      splitFirst pat (a ++ pat ++ b) = some (a, b) := by
  obtain ⟨dl, gl, rfl⟩ : ∃ dl gl, pat = dl ++ [gl] :=
    ⟨pat.dropLast, pat.getLast hne, (List.dropLast_append_getLast hne).symm⟩
  simp only [List.dropLast_concat]
  intro a
  induction a with
  | nil =>
    intro b _
    exact splitFirst_self_append (dl ++ [gl]) b hne
  | cons x a ih =>
    intro b hno
    have hnp : ¬ (dl ++ [gl]).isPrefixOf (x :: (a ++ (dl ++ [gl]) ++ b)) := by
      intro hp
      apply hno
      have hp' : (dl ++ [gl]) <+: (x :: (a ++ (dl ++ [gl]) ++ b)) :=
        List.isPrefixOf_iff_prefix.mp hp
      have hsub : (x :: (a ++ dl)) <+: (x :: (a ++ (dl ++ [gl]) ++ b)) := by
        refine ⟨[gl] ++ b, ?_⟩
        simp
      have hlen : (dl ++ [gl]).length ≤ (x :: (a ++ dl)).length := by
        simp
      obtain ⟨t, ht⟩ := List.prefix_of_prefix_length_le hp' hsub hlen
      exact ⟨[], t, by simpa using ht.symm⟩
    show splitFirst (dl ++ [gl]) (x :: (a ++ (dl ++ [gl]) ++ b)) = some (x :: a, b)
    rw [splitFirst, if_neg hnp]
    have hno' : ¬ occursSub (dl ++ [gl]) (a ++ dl) := by
      rintro ⟨u, v, huv⟩
      exact hno ⟨x :: u, v, by simp [huv]⟩
    rw [ih b hno']

lemma splitFirst_isSome_of_occurs (pat : List Char) (hne : pat ≠ []) :
    ∀ {cs : List Char}, occursSub pat cs → (splitFirst pat cs).isSome = true := by
  intro cs
  induction cs with
  | nil =>
    rintro ⟨a, b, h⟩
    rcases List.append_eq_nil.mp (List.append_eq_nil.mp h.symm).1 with ⟨-, hpat⟩
    exact absurd hpat hne
  | cons c cs ih =>
    rintro ⟨a, b, h⟩
    rw [splitFirst]
    split
    case isTrue => simp
    case isFalse hp =>
      cases a with
      | nil =>
        exfalso
        exact hp (List.isPrefixOf_iff_prefix.mpr ⟨b, by simpa using h.symm⟩)
      | cons a0 a' =>
        simp only [List.cons_append, List.cons.injEq] at h
        obtain ⟨rfl, h2⟩ := h
        have hsome := ih ⟨a', b, h2⟩
        cases hsf : splitFirst pat cs with
        | none => rw [hsf] at hsome; simp at hsome
        | some p => simp

lemma splitFirst_eq_none_of_not_occurs (pat : List Char)
    {cs : List Char} (h : ¬ occursSub pat cs) : splitFirst pat cs = none := by
  cases hsf : splitFirst pat cs with
  | none => rfl
  | some p =>
    exact absurd ⟨p.1, p.2, splitFirst_eq_some pat (by rw [hsf])⟩ h

lemma occursSub_iff_isSome (pat : List Char) (hne : pat ≠ []) (cs : List Char) :
    occursSub pat cs ↔ (splitFirst pat cs).isSome = true := by
  constructor
  · exact splitFirst_isSome_of_occurs pat hne
  · intro h
    cases hsf : splitFirst pat cs with
    | none => rw [hsf] at h; simp at h
    | some p => exact ⟨p.1, p.2, splitFirst_eq_some pat (by rw [hsf])⟩

lemma mk_data (s : String) : String.mk s.data = s := rfl

lemma empty_append_str (s : String) : "" ++ s = s := by
  cases s with
  | mk l => rfl

lemma appendWhere_map {α : Type} (xs : List α) (dg : α → String) (mk : α → Bool)
    (msg : String) :
    appendWhere (xs.map dg) (xs.map mk) msg
      = xs.map (fun x => if mk x then dg x ++ msg else dg x) := by
  unfold appendWhere
  induction xs with
  | nil => rfl
  | cons x xs ih =>
    simp only [List.map_cons, List.zipWith_cons_cons, ih]

lemma zipWith_append_diag (rows : List (List Cell)) (f : List Cell → String) :
    List.zipWith (fun r s => r ++ [Cell.str s]) rows (rows.map f)
      = rows.map (fun r => r ++ [Cell.str (f r)]) := by
  induction rows with
  | nil => rfl
  | cons r rows ih => simp [ih]

lemma finalize_of_map (d : Dataset) (hED : "Error_Details" ∉ d.cols)
    (f : List Cell → String) :
    finalize d (d.rows.map f)
      = { cols := d.cols ++ ["Error_Details"]
          rows := d.rows.map (fun r => r ++ [Cell.str (f r)]) } := by
  rw [finalize, if_neg hED, zipWith_append_diag]

lemma finalize_const_empty (d : Dataset) (hED : "Error_Details" ∉ d.cols) :
    finalize d (d.rows.map (fun _ => "")) = specAppendEmptyDiag d := by
  rw [finalize_of_map d hED]
  rfl

lemma validate_single (d : Dataset) (rule : Json) (rs : String)
    (hrs : json_loads rs = some (.arr [rule])) :
    validate_data d rs =
      match applyRule d (d.rows.map (fun _ => "")) rule with
      | .error e => .error e
      | .ok diag => .ok (.output (finalize d diag)) := by
  unfold validate_data
  rw [hrs]
  simp only [pyIterate, applyRules]
  cases h : applyRule d (d.rows.map fun _ => "") rule with
  | error e => rfl
  | ok diag => rfl

lemma validate_single_ok (d : Dataset) (rule : Json) (rs : String) (diag : List String)
    (hrs : json_loads rs = some (.arr [rule]))
    (hok : applyRule d (d.rows.map (fun _ => "")) rule = .ok diag) :
    validate_data d rs = .ok (.output (finalize d diag)) := by
  rw [validate_single d rule rs hrs, hok]

lemma applyRule_missing (d : Dataset) (diag : List String) (c : String)
    (constraintJ v : Json) (hcne : c ≠ "") (hcE : c ≠ "Error_Details")
    (hc : c ∉ d.cols) (hconstr : pyTruthy constraintJ = true) :
    applyRule d diag (.obj [("column", .str c), ("constraint", constraintJ), ("value", v)])
      = .ok (diag.map (fun s => s ++ (c ++ " is missing in the dataset. "))) := by
  simp only [applyRule, List.lookup, String.reduceBEq, Option.getD_some]
  have h1 : pyTruthy (Json.str c) = true := by simp [pyTruthy, hcne]
  rw [h1, hconstr]
  simp [hcE, hc, missingMsg, pyStr]

lemma applyRule_gt (d : Dataset) (diag : List String) (c : String) (v : Int)
    (hcne : c ≠ "") (hcE : c ≠ "Error_Details") (hc : c ∈ d.cols)
    (hnum : numericCol (readCol d diag c) = true) :
    applyRule d diag (.obj [("column", .str c),
        ("constraint", .str "greater than"), ("value", .num v)])
      = .ok (appendWhere diag ((readCol d diag c).map (fun x => cellLE x v))
          (c ++ " must be greater than " ++ toString v ++ ". ")) := by
  simp only [applyRule, List.lookup, String.reduceBEq, Option.getD_some]
  have h1 : pyTruthy (Json.str c) = true := by simp [pyTruthy, hcne]
  rw [h1]
  simp [pyTruthy, jsonIsStr, hcE, hc, hnum, pyFloat, pyStr, pyRepr]

lemma applyRule_skip_constraint (d : Dataset) (diag : List String) (c t : String)
    (v : Json) (hcne : c ≠ "") (htne : t ≠ "")
    (h1 : t ≠ "non-null") (h2 : t ≠ "greater than") (h3 : t ≠ "allowed values")
    (hin : c = "Error_Details" ∨ c ∈ d.cols) :
    applyRule d diag (.obj [("column", .str c), ("constraint", .str t), ("value", v)])
      = .ok diag := by
  simp only [applyRule, List.lookup, String.reduceBEq, Option.getD_some]
  have hb1 : pyTruthy (Json.str c) = true := by simp [pyTruthy, hcne]
  have hb2 : pyTruthy (Json.str t) = true := by simp [pyTruthy, htne]
  rw [hb1, hb2]
  simp [jsonIsStr, h1, h2, h3, hin]

lemma applyRule_allowed_nonlist (d : Dataset) (diag : List String) (c : String)
    (v : Json) (hcne : c ≠ "") (hin : c = "Error_Details" ∨ c ∈ d.cols)
    (hv : ∀ vs, v ≠ Json.arr vs) :
    applyRule d diag (.obj [("column", .str c),
        ("constraint", .str "allowed values"), ("value", v)])
      = .ok diag := by
  simp only [applyRule, List.lookup, String.reduceBEq, Option.getD_some]
  have hb1 : pyTruthy (Json.str c) = true := by simp [pyTruthy, hcne]
  rw [hb1]
  simp only [pyTruthy, jsonIsStr, String.reduceBEq]
  cases v with
  | arr vs => exact absurd rfl (hv vs)
  | _ => simp [hin]

lemma readCol_length (d : Dataset) (diag : List String) (c : String)
    (hin : c = "Error_Details" ∨ c ∈ d.cols) (hlen : diag.length = d.rows.length) :
    (readCol d diag c).length = d.rows.length := by
  by_cases hE : c = "Error_Details"
  · simp [readCol, hE, hlen]
  · rcases hin with h | h
    · exact absurd h hE
    · simp [readCol, hE, Dataset.getCol, h]

lemma applyRule_length (d : Dataset) (diag : List String) (rule : Json)
    (diag' : List String) (hlen : diag.length = d.rows.length)
    (h : applyRule d diag rule = .ok diag') : diag'.length = d.rows.length := by
  have happ : ∀ (mask : List Bool) (msg : String),
      mask.length = d.rows.length →
      (appendWhere diag mask msg).length = d.rows.length := by
    intro mask msg hm
    simp [appendWhere, hlen, hm]
  cases rule with
  | obj kvs =>
    simp only [applyRule] at h
    split at h
    · cases h; exact hlen
    · split at h
      · rename_i c heq
        split at h
        · rename_i hin
          have hcl : (readCol d diag c).length = d.rows.length :=
            readCol_length d diag c hin hlen
          split at h
          · cases h
            exact happ _ _ (by simp [hcl])
          · split at h
            · split at h
              · simp at h
              · cases h
                exact happ _ _ (by simp [hcl])
            · split at h
              · split at h
                · cases h
                  exact happ _ _ (by simp [hcl])
                · cases h; exact hlen
              · cases h; exact hlen
        · cases h; simp [hlen]
      · simp at h
      · simp at h
      · cases h; simp [hlen]
  | null => simp [applyRule] at h
  | bool b => simp [applyRule] at h
  | num n => simp [applyRule] at h
  | str s => simp [applyRule] at h
  | arr xs => simp [applyRule] at h

lemma applyRules_length (d : Dataset) (rules : List Json) :
    ∀ (diag diag' : List String), diag.length = d.rows.length →
      applyRules d rules diag = .ok diag' → diag'.length = d.rows.length := by
  induction rules with
  | nil =>
    intro diag diag' hlen h
    simp only [applyRules] at h
    cases h
    exact hlen
  | cons r rules ih =>
    intro diag diag' hlen h
    simp only [applyRules] at h
    cases hr : applyRule d diag r with
    | error e => rw [hr] at h; simp at h
    | ok diag1 =>
      rw [hr] at h
      exact ih diag1 diag' (applyRule_length d diag r diag1 hlen hr) h

lemma forall2_zipWith_append (rows : List (List Cell)) :
    ∀ diag : List String, diag.length = rows.length →
      List.Forall₂ (fun r r' => ∃ m, r' = r ++ [Cell.str m]) rows
        (List.zipWith (fun r s => r ++ [Cell.str s]) rows diag) := by
  induction rows with
  | nil => intro diag _; exact List.Forall₂.nil
  | cons r rows ih =>
    intro diag hlen
    cases diag with
    | nil => simp at hlen
    | cons s diag =>
      simp only [List.zipWith_cons_cons]
      exact List.Forall₂.cons ⟨s, rfl⟩ (ih diag (by simpa using hlen))

deriving instance DecidableEq for Except

/-! ## Claim theorems -/

/-- C1: a greater-than rule (wire token `"greater than"`; the spec writes the
constraint kind as `greater-than`) on a numeric column flags exactly the rows
whose value is ≤ the numeric rule value, appending the message
`"column must be greater than value. "` to those rows and leaving the other
rows' diagnostics empty. -/
theorem greater_than_flags_exactly_le (d : Dataset) (c : String) (v : Int) (rs : String)
    (hED : "Error_Details" ∉ d.cols) (hc : c ∈ d.cols) (hcne : c ≠ "")
    (hnum : numericCol ((d.getCol c).getD []) = true)
    (hrs : json_loads rs = some (.arr [.obj [("column", .str c),
      ("constraint", .str "greater than"), ("value", .num v)]])) :
    validate_data d rs = .ok (.output
      { cols := d.cols ++ ["Error_Details"]
        rows := d.rows.map (fun r =>
          r ++ [Cell.str (if cellLE (r.getD (d.cols.indexOf c) Cell.null) v
            then c ++ " must be greater than " ++ toString v ++ ". " else "")]) }) := by
  have hcE : c ≠ "Error_Details" := fun hEq => hED (hEq ▸ hc)
  have hread : readCol d (d.rows.map (fun _ => "")) c
      = d.rows.map (fun r => r.getD (d.cols.indexOf c) Cell.null) := by
    rw [readCol, if_neg hcE]
    simp [Dataset.getCol, hc]
  have hnum' : numericCol (readCol d (d.rows.map (fun _ => "")) c) = true := by
    rw [readCol, if_neg hcE]
    exact hnum
  rw [validate_single_ok d _ rs _ hrs (applyRule_gt d _ c v hcne hcE hc hnum')]
  rw [hread, List.map_map, appendWhere_map]
  simp only [Function.comp, empty_append_str]
  rw [finalize_of_map d hED]

/-- Witness for C1 at the spec's test: rows with Amount −5 and 10 against the
rule requiring Amount greater than 0 flag exactly the first row. -/
theorem greater_than_flags_exactly_le_witness :
    validate_data ⟨["Amount"], [[Cell.num (-5)], [Cell.num 10]]⟩
        "[\x7b\"column\": \"Amount\", \"constraint\": \"greater than\", \"value\": 0\x7d]"
      = .ok (.output ⟨["Amount", "Error_Details"],
          [[Cell.num (-5), Cell.str "Amount must be greater than 0. "],
           [Cell.num 10, Cell.str ""]]⟩) := by
  have h := greater_than_flags_exactly_le
    ⟨["Amount"], [[Cell.num (-5)], [Cell.num 10]]⟩ "Amount" 0
    "[\x7b\"column\": \"Amount\", \"constraint\": \"greater than\", \"value\": 0\x7d]"
    (by decide) (by decide) (by decide) (by rfl) (by rfl)
  exact h.trans (by rfl)

/-- C2: for every rule-set string that is not valid JSON, `validate_data`
takes the rule-parse-failure path (the spec's `RuleParseError`): it performs
no validation and produces no output file. -/
theorem invalid_ruleset_is_parse_error (d : Dataset) (s : String)
    (h : json_loads s = none) :
    validate_data d s = .ok .ruleParseError := by
  unfold validate_data
  rw [h]

/-- Witness for C2 at the spec's test input `"not json"`. -/
theorem invalid_ruleset_is_parse_error_witness :
    validate_data ⟨["Amount"], [[Cell.num 1]]⟩ "not json" = .ok .ruleParseError :=
  invalid_ruleset_is_parse_error ⟨["Amount"], [[Cell.num 1]]⟩ "not json" (by rfl)

/-- C3 counterexample: a greater-than rule on an existing numeric column whose
value is malformed (here `null`) is not silently ignored — `float(None)`
raises an uncaught `TypeError` and validation aborts, contradicting the claim
that such a rule is skipped and the run is not fatal. -/
theorem gt_rule_with_null_value_is_fatal :
    validate_data ⟨["Amount"], [[Cell.num 5]]⟩
        "[\x7b\"column\": \"Amount\", \"constraint\": \"greater than\", \"value\": null\x7d]"
      = .error .typeError := by
  rfl

/-- C3 (amended): a rule with an unsupported constraint token, and an
allowed-values rule whose value is not a sequence, are silently ignored — no
matter which rules follow, validation does not abort and produces exactly
what it produces on the remaining rules alone, so the remaining rules are
still applied; the exception forced by the counterexample is a greater-than
rule on an existing numeric column whose value cannot be converted to a
number, which aborts validation. -/
theorem malformed_rules_skipped_except_gt_cast :
    (∀ (d : Dataset) (c t : String) (v : Json) (rest : List Json) (rs rs₂ : String),
      c ∈ d.cols → c ≠ "" → t ≠ "" →
      t ≠ "non-null" → t ≠ "greater than" → t ≠ "allowed values" →
      json_loads rs = some (.arr (.obj [("column", .str c),
        ("constraint", .str t), ("value", v)] :: rest)) →
      json_loads rs₂ = some (.arr rest) →
      validate_data d rs = validate_data d rs₂) ∧
    (∀ (d : Dataset) (c : String) (v : Json) (rest : List Json) (rs rs₂ : String),
      c ∈ d.cols → c ≠ "" →
      (∀ vs, v ≠ Json.arr vs) →
      json_loads rs = some (.arr (.obj [("column", .str c),
        ("constraint", .str "allowed values"), ("value", v)] :: rest)) →
      json_loads rs₂ = some (.arr rest) →
      validate_data d rs = validate_data d rs₂) := by
  constructor
  · intro d c t v rest rs rs₂ hc hcne htne h1 h2 h3 hrs hrs₂
    have hskip : applyRules d (Json.obj [("column", .str c),
          ("constraint", .str t), ("value", v)] :: rest) (d.rows.map (fun _ => ""))
        = applyRules d rest (d.rows.map (fun _ => "")) := by
      rw [applyRules,
        applyRule_skip_constraint d _ c t v hcne htne h1 h2 h3 (Or.inr hc)]
    unfold validate_data
    rw [hrs, hrs₂]
    simp only [pyIterate]
    rw [hskip]
  · intro d c v rest rs rs₂ hc hcne hv hrs hrs₂
    have hskip : applyRules d (Json.obj [("column", .str c),
          ("constraint", .str "allowed values"), ("value", v)] :: rest)
          (d.rows.map (fun _ => ""))
        = applyRules d rest (d.rows.map (fun _ => "")) := by
      rw [applyRules,
        applyRule_allowed_nonlist d _ c v hcne (Or.inr hc) hv]
    unfold validate_data
    rw [hrs, hrs₂]
    simp only [pyIterate]
    rw [hskip]

/-- Witness for the amended C3: an unsupported constraint token at the head of
a two-rule set is skipped, the run is not fatal, and the remaining rule is
still applied — validation gives exactly the result of that remaining rule
alone. -/
theorem malformed_rules_skipped_except_gt_cast_witness :
    validate_data ⟨["Amount"], [[Cell.num 5]]⟩
        "[\x7b\"column\": \"Amount\", \"constraint\": \"weird\", \"value\": 0\x7d, \x7b\"column\": \"B\", \"constraint\": \"non-null\", \"value\": 0\x7d]"
      = validate_data ⟨["Amount"], [[Cell.num 5]]⟩
        "[\x7b\"column\": \"B\", \"constraint\": \"non-null\", \"value\": 0\x7d]" :=
  malformed_rules_skipped_except_gt_cast.1 ⟨["Amount"], [[Cell.num 5]]⟩ "Amount" "weird"
    (Json.num 0)
    [Json.obj [("column", .str "B"), ("constraint", .str "non-null"), ("value", .num 0)]]
    "[\x7b\"column\": \"Amount\", \"constraint\": \"weird\", \"value\": 0\x7d, \x7b\"column\": \"B\", \"constraint\": \"non-null\", \"value\": 0\x7d]"
    "[\x7b\"column\": \"B\", \"constraint\": \"non-null\", \"value\": 0\x7d]"
    (by decide) (by decide) (by decide) (by decide) (by decide) (by decide)
    (by rfl) (by rfl)

/-- C4 counterexample: `extract_profile_rules` can raise for a response it
receives — a 200 response whose body is valid JSON but not a JSON object
(here `"[1]"`) makes `result.get("choices", [])` raise an uncaught
`AttributeError`, contradicting the claim that extract never raises for any
HTTP response. -/
theorem extract_raises_on_non_object_json_body :
    extract_profile_rules 200 "[1]" = .error .attributeError := by
  rfl

/-- C4 (amended): `extract_profile_rules` returns `"[]"` for every non-200
status regardless of body, for every 200 response whose body is not valid
JSON, and for every 200 response whose JSON-object body has no `choices`
field; but it is not exception-free on every response (see the
counterexample). -/
theorem extract_fail_open_cases :
    (∀ (status : Nat) (body : String), status ≠ 200 →
      extract_profile_rules status body = .ok "[]") ∧
    (∀ body : String, json_loads body = none →
      extract_profile_rules 200 body = .ok "[]") ∧
    (∀ (body : String) (kvs : List (String × Json)),
      json_loads body = some (.obj kvs) → List.lookup "choices" kvs = none →
      extract_profile_rules 200 body = .ok "[]") := by
  refine ⟨?_, ?_, ?_⟩
  · intro status body h
    rw [extract_profile_rules, if_pos h]
  · intro body h
    rw [extract_profile_rules, if_neg (by simp), h]
  · intro body kvs h hl
    rw [extract_profile_rules, if_neg (by simp), h]
    simp [hl, pyTruthy]

/-- Witness for the amended C4 at a 404 response. -/
theorem extract_fail_open_cases_witness :
    extract_profile_rules 404 "irrelevant" = .ok "[]" :=
  extract_fail_open_cases.1 404 "irrelevant" (by decide)

/-- C5 counterexample: on a dataset that already has an `Error_Details`
column, `validate_data` with the empty rule set overwrites that column in
place (the original value is lost and no new column is appended), so the
output is not the dataset unchanged plus an appended empty diagnostic
column. -/
theorem empty_ruleset_existing_diag_col_overwritten :
    validate_data ⟨["Error_Details"], [[Cell.str "x"]]⟩ "[]"
      ≠ .ok (.output (specAppendEmptyDiag ⟨["Error_Details"], [[Cell.str "x"]]⟩)) := by
  decide

/-- C5 (amended): for every dataset without a pre-existing `Error_Details`
column, `validate_data` on the empty rule set `"[]"` returns the dataset with
all original columns and values unchanged and an all-empty `Error_Details`
column appended as the last column. -/
theorem empty_ruleset_appends_empty_diag (d : Dataset)
    (hED : "Error_Details" ∉ d.cols) :
    validate_data d "[]" = .ok (.output (specAppendEmptyDiag d)) := by
  have h : json_loads "[]" = some (.arr []) := rfl
  unfold validate_data
  rw [h]
  simp only [pyIterate, applyRules]
  rw [finalize_const_empty d hED]

/-- Witness for the amended C5 on a one-column dataset. -/
theorem empty_ruleset_appends_empty_diag_witness :
    validate_data ⟨["Amount"], [[Cell.num 7]]⟩ "[]"
      = .ok (.output (specAppendEmptyDiag ⟨["Amount"], [[Cell.num 7]]⟩)) :=
  empty_ruleset_appends_empty_diag ⟨["Amount"], [[Cell.num 7]]⟩ (by decide)

/-- C6 counterexample: a rule naming the column `Error_Details`, which is
absent from the input dataset, does not flag any row — the membership test
runs after the diagnostic column has been added, so the rule dispatches on
the (empty) diagnostic column instead of appending the
`"is missing in the dataset"` message to every row, contradicting the claim
for that rule. -/
theorem absent_error_details_rule_not_flagged :
    validate_data ⟨["A"], [[Cell.num 1]]⟩
        "[\x7b\"column\": \"Error_Details\", \"constraint\": \"non-null\"\x7d]"
      = .ok (.output ⟨["A", "Error_Details"], [[Cell.num 1, Cell.str ""]]⟩) ∧
    validate_data ⟨["A"], [[Cell.num 1]]⟩
        "[\x7b\"column\": \"Error_Details\", \"constraint\": \"non-null\"\x7d]"
      ≠ .ok (.output ⟨["A", "Error_Details"],
          [[Cell.num 1, Cell.str "Error_Details is missing in the dataset. "]]⟩) := by
  constructor
  · rfl
  · decide

/-- C6 (amended): a rule whose column and constraint are present and truthy,
whose column name differs from `Error_Details`, and whose column is absent
from the dataset appends `"column is missing in the dataset. "` to every
row's diagnostic, regardless of the constraint and value the rule carries. -/
theorem absent_column_rule_flags_every_row (d : Dataset) (c : String)
    (constraintJ v : Json) (rs : String)
    (hED : "Error_Details" ∉ d.cols) (hc : c ∉ d.cols) (hcE : c ≠ "Error_Details")
    (hcne : c ≠ "") (hconstr : pyTruthy constraintJ = true)
    (hrs : json_loads rs = some (.arr [.obj [("column", .str c),
      ("constraint", constraintJ), ("value", v)]])) :
    validate_data d rs = .ok (.output
      { cols := d.cols ++ ["Error_Details"]
        rows := d.rows.map (fun r =>
          r ++ [Cell.str (c ++ " is missing in the dataset. ")]) }) := by
  rw [validate_single_ok d _ rs _ hrs
    (applyRule_missing d _ c constraintJ v hcne hcE hc hconstr)]
  rw [List.map_map]
  have hfun : ((fun s => s ++ (c ++ " is missing in the dataset. "))
        ∘ (fun _ : List Cell => ""))
      = (fun _ : List Cell => c ++ " is missing in the dataset. ") := by
    funext x
    simp [empty_append_str]
  rw [hfun, finalize_of_map d hED]

/-- Witness for the amended C6: a rule on the absent column `B` flags every
row of a two-row dataset, with a constraint the engine does not know. -/
theorem absent_column_rule_flags_every_row_witness :
    validate_data ⟨["A"], [[Cell.num 3], [Cell.str "t"]]⟩
        "[\x7b\"column\": \"B\", \"constraint\": \"weird\", \"value\": null\x7d]"
      = .ok (.output ⟨["A", "Error_Details"],
          [[Cell.num 3, Cell.str "B is missing in the dataset. "],
           [Cell.str "t", Cell.str "B is missing in the dataset. "]]⟩) := by
  have h := absent_column_rule_flags_every_row ⟨["A"], [[Cell.num 3], [Cell.str "t"]]⟩
    "B" (Json.str "weird") Json.null
    "[\x7b\"column\": \"B\", \"constraint\": \"weird\", \"value\": null\x7d]"
    (by decide) (by decide) (by decide) (by decide) (by rfl) (by rfl)
  exact h.trans (by rfl)

/-- C7: `clean_json_response` returns exactly the interior of the first
fenced-JSON block (the lazy match stops at the first closing fence after the
first opener), and is the identity on inputs containing neither a fence
opener nor a boxed marker. -/
theorem sanitize_fence_and_identity :
    (∀ p q r : String,
      ¬ occursSub fenceOpen (p ++ "```json").data →
      ¬ occursSub fenceClose (q ++ "\n``").data →
      clean_json_response (p ++ "```json\n" ++ q ++ "\n```" ++ r) = q) ∧
    (∀ s : String, ¬ occursSub fenceOpen s.data → ¬ occursSub boxedOpen s.data →
      clean_json_response s = s) := by
  constructor
  · intro p q r h1 h2
    have h1' : ¬ occursSub fenceOpen (p.data ++ fenceOpen.dropLast) := by
      have hEq : p.data ++ fenceOpen.dropLast = (p ++ "```json").data := by
        rw [String.data_append]
        rfl
      rw [hEq]
      exact h1
    have h2' : ¬ occursSub fenceClose (q.data ++ fenceClose.dropLast) := by
      have hEq : q.data ++ fenceClose.dropLast = (q ++ "\n``").data := by
        rw [String.data_append]
        rfl
      rw [hEq]
      exact h2
    have hdata : (p ++ "```json\n" ++ q ++ "\n```" ++ r).data
        = p.data ++ fenceOpen ++ (q.data ++ fenceClose ++ r.data) := by
      simp only [String.data_append, List.append_assoc]
      rfl
    have hfm : fenceMatch ((p ++ "```json\n" ++ q ++ "\n```" ++ r).data)
        = some q.data := by
      unfold fenceMatch
      rw [hdata, splitFirst_append_of_not_occurs fenceOpen (by decide) p.data _ h1']
      show (splitFirst fenceClose (q.data ++ fenceClose ++ r.data)).map (·.1)
        = some q.data
      rw [splitFirst_append_of_not_occurs fenceClose (by decide) q.data r.data h2']
      rfl
    unfold clean_json_response
    rw [hfm]
  · intro s h1 h2
    have hfm : fenceMatch s.data = none := by
      unfold fenceMatch
      rw [splitFirst_eq_none_of_not_occurs fenceOpen h1]
    have hbm : boxedMatch s.data = none := by
      unfold boxedMatch
      rw [splitFirst_eq_none_of_not_occurs boxedOpen h2]
    unfold clean_json_response
    rw [hfm, hbm]

/-- Witness for C7: the fenced block in a noisy response is stripped to its
interior, and a plain string passes through unchanged. -/
theorem sanitize_fence_and_identity_witness :
    clean_json_response "x```json\n[1]\n```y" = "[1]" ∧
    clean_json_response "hello" = "hello" := by
  constructor
  · have h := sanitize_fence_and_identity.1 "x" "[1]" "y"
      (by rw [occursSub_iff_isSome _ (by decide)]; decide)
      (by rw [occursSub_iff_isSome _ (by decide)]; decide)
    exact (by rfl : clean_json_response "x```json\n[1]\n```y"
      = clean_json_response ("x" ++ "```json\n" ++ "[1]" ++ "\n```" ++ "y")).trans h
  · exact sanitize_fence_and_identity.2 "hello"
      (by rw [occursSub_iff_isSome _ (by decide)]; decide)
      (by rw [occursSub_iff_isSome _ (by decide)]; decide)

/-- C8: a rule-set string that is valid JSON but does not parse to an array
of objects makes `validate_data` raise an uncaught `AttributeError` while
iterating the rules (iterating a dict yields its string keys, and neither a
string nor an int has a `.get` method), rather than failing with the
rule-parse error or skipping gracefully; shown at a one-field JSON object and
at the array `[1]`. -/
theorem valid_json_non_rule_list_raises :
    validate_data ⟨["A"], [[Cell.num 1]]⟩ "\x7b\"a\": 1\x7d" = .error .attributeError ∧
    validate_data ⟨["A"], [[Cell.num 1]]⟩ "[1]" = .error .attributeError := by
  constructor
  · rfl
  · rfl

/-- C9: with no fence opener present, the boxed wrapper's lazy match stops at
the first closing brace, so when the boxed content itself contains a closing
brace only the prefix of the content before that brace is returned. -/
theorem boxed_truncates_at_first_rbrace (p q r : String)
    (h1 : ¬ occursSub fenceOpen (p ++ "\\boxed\x7b" ++ q ++ "\x7d" ++ r).data)
    (h2 : ¬ occursSub boxedOpen (p ++ "\\boxed").data)
    (h3 : ¬ occursSub boxedClose q.data) :
    clean_json_response (p ++ "\\boxed\x7b" ++ q ++ "\x7d" ++ r) = q := by
  have h2' : ¬ occursSub boxedOpen (p.data ++ boxedOpen.dropLast) := by
    have hEq : p.data ++ boxedOpen.dropLast = (p ++ "\\boxed").data := by
      rw [String.data_append]
      rfl
    rw [hEq]
    exact h2
  have h3' : ¬ occursSub boxedClose (q.data ++ boxedClose.dropLast) := by
    have hEq : q.data ++ boxedClose.dropLast = q.data := by
      rw [show boxedClose.dropLast = ([] : List Char) from rfl, List.append_nil]
    rw [hEq]
    exact h3
  have hdata : (p ++ "\\boxed\x7b" ++ q ++ "\x7d" ++ r).data
      = p.data ++ boxedOpen ++ (q.data ++ boxedClose ++ r.data) := by
    simp only [String.data_append, List.append_assoc]
    rfl
  have hfm : fenceMatch ((p ++ "\\boxed\x7b" ++ q ++ "\x7d" ++ r).data) = none := by
    unfold fenceMatch
    rw [splitFirst_eq_none_of_not_occurs fenceOpen h1]
  have hbm : boxedMatch ((p ++ "\\boxed\x7b" ++ q ++ "\x7d" ++ r).data)
      = some q.data := by
    unfold boxedMatch
    rw [hdata, splitFirst_append_of_not_occurs boxedOpen (by decide) p.data _ h2']
    show (splitFirst boxedClose (q.data ++ boxedClose ++ r.data)).map (·.1)
      = some q.data
    rw [splitFirst_append_of_not_occurs boxedClose (by decide) q.data r.data h3']
    rfl
  unfold clean_json_response
  rw [hfm, hbm]

/-- Witness for C9 at the boxed JSON payload whose content contains nested
closing braces: only the prefix before the first closing brace survives. -/
theorem boxed_truncates_at_first_rbrace_witness :
    clean_json_response "\\boxed\x7b[\x7b\"a\":1\x7d]\x7d" = "[\x7b\"a\":1" := by
  have h := boxed_truncates_at_first_rbrace "" "[\x7b\"a\":1" "]\x7d"
    (by rw [occursSub_iff_isSome _ (by decide)]; decide)
    (by rw [occursSub_iff_isSome _ (by decide)]; decide)
    (by rw [occursSub_iff_isSome _ (by decide)]; decide)
  exact (by rfl : clean_json_response "\\boxed\x7b[\x7b\"a\":1\x7d]\x7d"
    = clean_json_response ("" ++ "\\boxed\x7b" ++ "[\x7b\"a\":1" ++ "\x7d" ++ "]\x7d")).trans h

/-- C10 counterexample: on a dataset whose only column is named
`Error_Details`, validation writes that original column — its value `"orig"`
is replaced by `""` in the written dataframe — so validate does not leave the
value of every original dataset column unchanged, and the column it writes is
not an appended one. -/
theorem validate_overwrites_existing_diag_column :
    validate_data ⟨["Error_Details"], [[Cell.str "orig"]]⟩ "[]"
      = .ok (.output ⟨["Error_Details"], [[Cell.str ""]]⟩) ∧
    Cell.str "" ≠ Cell.str "orig" := by
  constructor
  · rfl
  · decide

/-- C10 (amended): for every dataset without a pre-existing `Error_Details`
column, whenever `validate_data` returns an output dataframe, its columns are
the originals plus `Error_Details` appended last, and every output row is the
corresponding input row with one diagnostic cell appended — no original
column value is ever written. -/
theorem validate_frame_only_appends_diag (d : Dataset) (rs : String) (d' : Dataset)
    (hED : "Error_Details" ∉ d.cols)
    (h : validate_data d rs = .ok (.output d')) :
    d'.cols = d.cols ++ ["Error_Details"] ∧
      List.Forall₂ (fun r r' => ∃ m, r' = r ++ [Cell.str m]) d.rows d'.rows := by
  cases hj : json_loads rs with
  | none =>
    have hv : validate_data d rs = .ok .ruleParseError := by
      unfold validate_data
      rw [hj]
    rw [hv] at h
    simp at h
  | some j =>
    cases hi : pyIterate j with
    | error e =>
      have hv : validate_data d rs = .error e := by
        unfold validate_data
        rw [hj]
        simp only [hi]
      rw [hv] at h
      simp at h
    | ok rules =>
      cases ha : applyRules d rules (d.rows.map fun _ => "") with
      | error e =>
        have hv : validate_data d rs = .error e := by
          unfold validate_data
          rw [hj]
          simp only [hi, ha]
        rw [hv] at h
        simp at h
      | ok diag =>
        have hv : validate_data d rs = .ok (.output (finalize d diag)) := by
          unfold validate_data
          rw [hj]
          simp only [hi, ha]
        rw [hv] at h
        simp only [Except.ok.injEq, ValidateResult.output.injEq] at h
        subst h
        have hlen : diag.length = d.rows.length :=
          applyRules_length d rules _ diag (by simp) ha
        rw [finalize, if_neg hED]
        exact ⟨rfl, forall2_zipWith_append d.rows diag (by rw [hlen])⟩

/-- Witness for the amended C10 on a one-row dataset with the empty rule
set. -/
theorem validate_frame_only_appends_diag_witness :
    (⟨["A", "Error_Details"], [[Cell.num 1, Cell.str ""]]⟩ : Dataset).cols
        = ["A"] ++ ["Error_Details"] ∧
      List.Forall₂ (fun r r' => ∃ m, r' = r ++ [Cell.str m])
        [[Cell.num 1]] [[Cell.num 1, Cell.str ""]] :=
  validate_frame_only_appends_diag ⟨["A"], [[Cell.num 1]]⟩ "[]"
    ⟨["A", "Error_Details"], [[Cell.num 1, Cell.str ""]]⟩ (by decide) (by rfl)

end GenAIDataProfiling
